import Mathlib

/-!
Verification of the machinist gulpfile build/publish tasks.

The definitions below are a shallow embedding of the logic in
src/gulpfile.js: the project-name slugification, the publish-path
construction, the project-date validator, and operational models of the
asset-publish and story-publish pipelines. Third-party plugin behaviour
(git-assert-clean, gulp-prompt, gulp-awspublish publish/sync/gzip,
gulp-jsoncombine) is not present in the repository; those operations are
modelled from the specification and marked as such in their doc comments.
-/

namespace Machinist

/-- Whitespace class of the ECMAScript regular expression escape used in
the gulpfile (the pattern that replaces whitespace runs): space, tab,
line feed, vertical tab, form feed, carriage return, no-break space,
Ogham space mark, the en-quad .. hair-space range, line separator,
paragraph separator, narrow no-break space, medium mathematical space,
ideographic space, and the byte-order mark. -/
def isJsWs (c : Char) : Bool :=
  c == ' ' || c == '\t' || c == '\n' || c.val == 11 || c.val == 12 ||
  c == '\r' || c.val == 0xA0 || c.val == 0x1680 ||
  (0x2000 ≤ c.val && c.val ≤ 0x200A) || c.val == 0x2028 || c.val == 0x2029 ||
  c.val == 0x202F || c.val == 0x205F || c.val == 0x3000 || c.val == 0xFEFF

/-- Replacement of every maximal whitespace run by one hyphen, as the
global regex replace in `configProjectNameProp.replace(..., '-')` does
(gulpfile line 39). The flag records whether the previous character was
whitespace, so only the first character of each run emits the hyphen. -/
def replaceWsAux : Bool → List Char → List Char
  | _, [] => []
  | inRun, c :: cs =>
    if isJsWs c then
      if inRun then replaceWsAux true cs
      else '-' :: replaceWsAux true cs
    else
      c :: replaceWsAux false cs

/-- The slugified project name: `projectName.replace(..., '-').toLowerCase()`
from gulpfile line 39, with lower-casing modelled per character (the
names in play are ASCII). -/
def convertedProjectName (s : String) : String :=
  String.mk ((replaceWsAux false s.data).map Char.toLower)

/-- Modelled from the spec: splitting a character list at maximal
whitespace runs, keeping the empty pieces that a leading or trailing run
produces. This is the independent rendering of the normalization words
of the spec, used to compare the code slug against the spec slug. -/
def wsSplit : List Char → List (List Char)
  | [] => [[]]
  | [c] => if isJsWs c then [[], []] else [[c]]
  | c :: d :: cs =>
    if isJsWs c then
      if isJsWs d then wsSplit (d :: cs)
      else [] :: wsSplit (d :: cs)
    else
      match wsSplit (d :: cs) with
      | [] => [[c]]
      | p :: ps => (c :: p) :: ps

/-- Joining pieces with a single hyphen between consecutive pieces. -/
def joinHyphen : List (List Char) → List Char
  | [] => []
  | [p] => p
  | p :: q :: ps => p ++ '-' :: joinHyphen (q :: ps)

/-- Modelled from the spec: the normalization the spec describes without
trimming — every maximal whitespace run (leading and trailing runs
included) becomes one hyphen, and the result is lower-cased. -/
def slugSpecNoTrim (s : String) : String :=
  String.mk ((joinHyphen (wsSplit s.data)).map Char.toLower)

/-- Modelled from the spec: the normalization the claim describes with
trimming — leading and trailing whitespace is removed, each interior
maximal whitespace run becomes one hyphen, and the result is
lower-cased. Equivalently, the whitespace-separated words joined by
hyphens. -/
def slugSpecTrim (s : String) : String :=
  String.mk ((joinHyphen ((wsSplit s.data).filter (fun p => !p.isEmpty))).map Char.toLower)

/-- A JavaScript value as far as the gulpfile observes one: a string, a
number, a boolean, null, or undefined (an absent YAML field reads as
undefined). -/
inductive JsVal where
  | vStr (s : String)
  | vNum (n : Int)
  | vBool (b : Bool)
  | vNull
  | vUndef
deriving DecidableEq, Repr

/-- Whether `typeof v` is the string "string". -/
def typeofIsString : JsVal → Bool
  | .vStr _ => true
  | _ => false

/-- JavaScript ToString coercion, as applied by a regex test on a
non-string value (integers print in decimal). -/
def jsToString : JsVal → String
  | .vStr s => s
  | .vNum n => toString n
  | .vBool b => if b then "true" else "false"
  | .vNull => "null"
  | .vUndef => "undefined"

/-- JavaScript truthiness for the values above: a string is truthy when
non-empty, a number when non-zero. -/
def truthy : JsVal → Bool
  | .vStr s => !s.data.isEmpty
  | .vNum n => n != 0
  | .vBool b => b
  | .vNull => false
  | .vUndef => false

/-- Decimal digit test, 0 through 9. -/
def isDigitCh (c : Char) : Bool := '0' ≤ c && c ≤ '9'

/-- The year pattern of gulpfile line 55 on the character list: first
character 1 or 2, then three decimal digits, nothing else. -/
def yearReChars : List Char → Bool
  | [a, b, c, d] => (a == '1' || a == '2') && isDigitCh b && isDigitCh c && isDigitCh d
  | _ => false

/-- The year regular expression of gulpfile line 55. -/
def yearRe (s : String) : Bool := yearReChars s.data

/-- The month pattern of gulpfile line 56 on the character list: either
1 followed by 0, 1 or 2, or 0 followed by 1 through 9, nothing else. -/
def monthReChars : List Char → Bool
  | [a, b] => (a == '1' && (b == '0' || b == '1' || b == '2')) ||
              (a == '0' && ('1' ≤ b && b ≤ '9'))
  | _ => false

/-- The month regular expression of gulpfile line 56. -/
def monthRe (s : String) : Bool := monthReChars s.data

/-- The two distinct errors checkProjectInitDate can raise. -/
inductive DateError where
  | malformed
  | missing
deriving DecidableEq, Repr

/-- The validator checkProjectInitDate of gulpfile lines 54 to 65:
first branch throws when the year fails its regex, the year or month is
not a string, or the month fails its regex; second branch throws when
the year or month field is falsy. Returns the raised error, or none
when the validator accepts. -/
def checkProjectInitDate (year month : JsVal) : Option DateError :=
  if !yearRe (jsToString year) || !typeofIsString year ||
     !typeofIsString month || !monthRe (jsToString month) then
    some .malformed
  else if !truthy year || !truthy month then
    some .missing
  else
    none

/-- The publish location of gulpfile line 40, a template literal with a
leading and a trailing slash. -/
def objectsLocation (y m slug : String) : String :=
  "/machinist/dist/" ++ y ++ "/" ++ m ++ "/" ++ slug ++ "/"

/-- The argument of the sync call on gulpfile line 115, a separate
template literal without the leading and trailing slashes. -/
def syncLocation (y m slug : String) : String :=
  "machinist/dist/" ++ y ++ "/" ++ m ++ "/" ++ slug

/-- A remote side effect against the object store: an upload of a key
with a content body, or a deletion of a key. -/
inductive RemoteOp where
  | upload (key : String) (content : String)
  | deleteKey (key : String)
deriving DecidableEq, Repr

/-- Outcome of a publish-story invocation. -/
inductive StoryOutcome where
  | ok
  | errorDirty
  | errorDate
  | declined
deriving DecidableEq, Repr

/-- First value stored under a key in a remote-store listing. -/
def lookupKey (store : List (String × String)) (k : String) : Option String :=
  (store.find? (fun e => e.1 == k)).map (fun e => e.2)

/-- Keys of a remote-store listing. -/
def storeKeys (store : List (String × String)) : List String :=
  store.map (fun e => e.1)

/-- Modelled from the spec: the upload half of the publish step of the
upload library (gulpfile line 114) — each local file is uploaded under
the location-prefixed key, except that a file whose content already
matches the remote object under that key is left untouched (skipped). -/
def publishOps (loc : String) (remote : List (String × String))
    (files : List (String × String)) : List RemoteOp :=
  files.filterMap (fun f =>
    if lookupKey remote (loc ++ f.1) == some f.2 then none
    else some (.upload (loc ++ f.1) f.2))

/-- Whether a key starts with the given location string, character by
character. -/
def strStartsWith (loc s : String) : Bool := loc.data.isPrefixOf s.data

/-- Modelled from the spec: the mirror-sync deletion half of the sync
step of the upload library (gulpfile line 115) — every remote key under
the given location with no local counterpart is deleted. -/
def syncDeleteOps (loc : String) (localKeys : List String)
    (remote : List (String × String)) : List RemoteOp :=
  (remote.filter (fun r => strStartsWith loc r.1 && !localKeys.contains r.1)).map
    (fun r => .deleteKey r.1)

/-- The source glob of gulpfile lines 106 to 109: everything under the
destination directory except files with the ai, html and jsx extensions
of the ai2html workflow. -/
def storySrcFiles (files : List (String × String)) : List (String × String) :=
  files.filter (fun f =>
    !(f.1.endsWith ".ai" || f.1.endsWith ".html" || f.1.endsWith ".jsx"))

/-- Environment of one publish-story invocation: the cleanliness of the
working tree, the configured date fields and project name, the outcome
the operator gives the confirmation prompt, the local build output and
the remote listing. -/
structure StoryEnv where
  clean : Bool
  year : JsVal
  month : JsVal
  projectName : String
  confirmed : Bool
  localFiles : List (String × String)
  remote : List (String × String)

/-- The publish-story task of gulpfile lines 96 to 120, as the list of
remote operations it performs together with its outcome. The two
pre-flight checks run first (cleanStaging on line 104, modelled from the
spec as a synchronous dirty-tree failure, then checkProjectInitDate on
line 105); the confirmation prompt (line 110, modelled from the spec as
aborting the stream when declined) guards the upload (line 114, keys
renamed under objectsLocation by line 112) and the sync deletions
(line 115, filtered by syncLocation). -/
def publishStory (env : StoryEnv) : List RemoteOp × StoryOutcome :=
  if !env.clean then ([], .errorDirty)
  else if (checkProjectInitDate env.year env.month).isSome then ([], .errorDate)
  else if !env.confirmed then ([], .declined)
  else
    let y := jsToString env.year
    let m := jsToString env.month
    let slug := convertedProjectName env.projectName
    let files := storySrcFiles env.localFiles
    let ups := publishOps (objectsLocation y m slug) env.remote files
    let dels := syncDeleteOps (syncLocation y m slug)
      (files.map (fun f => objectsLocation y m slug ++ f.1)) env.remote
    (ups ++ dels, .ok)

/-- Modelled from the spec: one create-only upload (the createOnly
option on gulpfile line 86) — an object already present at the
destination key is never overwritten, otherwise the file is stored. -/
def createOnlyUpload (store : List (String × String)) (f : String × String) :
    List (String × String) :=
  if (storeKeys store).contains f.1 then store else store ++ [f]

/-- One run of the publish-assets upload over a file list, folding the
create-only upload over the remote store. -/
def publishAssetsRun (store : List (String × String))
    (files : List (String × String)) : List (String × String) :=
  files.foldl createOnlyUpload store

/-- The extension allow-list of the publish-assets source glob
(gulpfile line 79). -/
def assetSrcExts : List String :=
  ["jpg", "png", "gif", "mp3", "ogg", "flac", "mp4", "mov", "avi", "webm",
   "zip", "rar", "webp", "txt", "csv", "json", "pdf"]

/-- The extension list of the gzip filter (gulpfile line 77). -/
def gzipFilterExts : List String := ["txt", "csv", "json", "js", "css"]

/-- A file under the cdnassets directory, split into its relative path
and its extension. -/
structure CdnFile where
  relPath : String
  ext : String
  content : String
deriving DecidableEq, Repr

/-- Whether a cdnassets file matches the source glob of the asset
publish task and therefore enters the upload stream. -/
def entersAssetStream (f : CdnFile) : Bool := assetSrcExts.contains f.ext

/-- Body of an uploaded object: raw bytes, or the gzip compression of
the original content (modelled from the spec as a tagged constructor,
the compressed bytes themselves being opaque transport data). -/
inductive AssetBody where
  | raw (s : String)
  | gzipCompressed (s : String)
deriving DecidableEq, Repr

/-- An object as the asset publisher hands it to the store: key, body,
and whether the gzip content-encoding header is set. -/
structure UploadedAsset where
  key : String
  body : AssetBody
  contentEncodingGzip : Bool
deriving DecidableEq, Repr

/-- The per-file pipeline of the publish-assets task (gulpfile lines 79
to 86): rename under the cdnassets projects location (line 81), pass
text-like files through the gzip filter and compress them with a gzip
content-encoding mark (lines 83 to 85, modelled from the spec), leave
the rest untouched. -/
def processAsset (y m slug : String) (f : CdnFile) : UploadedAsset :=
  let renamed := "/cdnassets/projects/" ++ y ++ "/" ++ m ++ "/" ++ slug ++ "/" ++ f.relPath
  let gz := gzipFilterExts.contains f.ext
  { key := renamed
    body := if gz then .gzipCompressed f.content else .raw f.content
    contentEncodingGzip := gz }

/-- A JSON value. -/
inductive Json where
  | jnull
  | jbool (b : Bool)
  | jnum (n : Int)
  | jstr (s : String)
  | jarr (xs : List Json)
  | jobj (fields : List (String × Json))

/-- The combiner callback of gulpfile line 150: the embed document and
the styles document (read from main.json, whose data key is main,
modelled from the spec of the JSON-combining plugin) become the two
top-level fields embed and styles. -/
def combineJson (embedDoc mainDoc : Json) : Json :=
  .jobj [("embed", embedDoc), ("styles", mainDoc)]

/-- Top-level keys of a JSON object, in order. -/
def topLevelKeys : Json → List String
  | .jobj fs => fs.map (fun f => f.1)
  | _ => []

/-- A concrete environment with a dirty working tree. -/
def sampleEnvDirty : StoryEnv :=
  { clean := false, year := .vStr "2017", month := .vStr "01",
    projectName := "My Story", confirmed := true,
    localFiles := [("index.js", "code")], remote := [] }

/-- A concrete environment where the operator declines the prompt. -/
def sampleEnvDeclined : StoryEnv :=
  { clean := true, year := .vStr "2017", month := .vStr "01",
    projectName := "My Story", confirmed := false,
    localFiles := [("index.js", "code")], remote := [("k", "v")] }

/-- A concrete environment where every gate passes. -/
def sampleEnvOk : StoryEnv :=
  { clean := true, year := .vStr "2017", month := .vStr "01",
    projectName := "My Story", confirmed := true,
    localFiles := [("index.js", "code")], remote := [] }

/-- A concrete text-like cdnassets file. -/
def sampleTxtFile : CdnFile :=
  { relPath := "data/info.txt", ext := "txt", content := "hello" }

theorem wsSplit_ne_nil (l : List Char) : wsSplit l ≠ [] := by
  induction l using wsSplit.induct with
  | case1 => simp [wsSplit]
  | case2 c hc => simp [wsSplit, hc]
  | case3 c hc => simp [wsSplit, hc]
  | case4 c d cs hc hd ih => simpa [wsSplit, hc, hd] using ih
  | case5 c d cs hc hd ih => simp [wsSplit, hc, hd]
  | case6 c d cs hc hw ih => exact absurd hw (ih)
  | case7 c d cs hc p ps hw ih => simp [wsSplit, hc, hw]

theorem joinHyphen_cons_head (c : Char) (p : List Char) (ps : List (List Char)) :
    joinHyphen ((c :: p) :: ps) = c :: joinHyphen (p :: ps) := by
  cases ps with
  | nil => simp [joinHyphen]
  | cons q qs => simp [joinHyphen]

theorem replaceWs_eq_joinHyphen_wsSplit (l : List Char) :
    replaceWsAux false l = joinHyphen (wsSplit l) := by
  induction l using wsSplit.induct with
  | case1 => simp [replaceWsAux, wsSplit, joinHyphen]
  | case2 c hc => simp [replaceWsAux, wsSplit, joinHyphen, hc]
  | case3 c hc => simp [replaceWsAux, wsSplit, joinHyphen, hc]
  | case4 c d cs hc hd ih =>
    simp only [wsSplit, hc, hd, if_true]
    rw [← ih]
    simp [replaceWsAux, hc, hd]
  | case5 c d cs hc hd ih =>
    simp only [wsSplit, hc, hd, if_true]
    obtain ⟨p, ps, hps⟩ : ∃ p ps, wsSplit (d :: cs) = p :: ps := by
      cases hw : wsSplit (d :: cs) with
      | nil => exact absurd hw (wsSplit_ne_nil _)
      | cons p ps => exact ⟨p, ps, rfl⟩
    simp only [if_neg hd, hps, Bool.false_eq_true, if_false]
    have hjoin : joinHyphen ([] :: p :: ps) = '-' :: joinHyphen (p :: ps) := by
      simp [joinHyphen]
    rw [hjoin, ← hps, ← ih]
    simp [replaceWsAux, hc, hd]
  | case6 c d cs hc hw ih => exact absurd hw (wsSplit_ne_nil _)
  | case7 c d cs hc p ps hw ih =>
    simp only [wsSplit, hc, if_neg hc, hw, Bool.false_eq_true, if_false]
    rw [joinHyphen_cons_head, ← hw, ← ih]
    simp [replaceWsAux, hc]

theorem yearRe_nonempty {s : String} (h : yearRe s = true) : s.data.isEmpty = false := by
  cases hd : s.data with
  | nil => rw [yearRe, hd] at h; simp [yearReChars] at h
  | cons a l => simp

theorem monthRe_nonempty {s : String} (h : monthRe s = true) : s.data.isEmpty = false := by
  cases hd : s.data with
  | nil => rw [monthRe, hd] at h; simp [monthReChars] at h
  | cons a l => simp

/-- Claim C1, counterexample: the claim says the deriver trims the raw
name, but the code performs no trimming — on the input built of a space
followed by the letter a, the code produces a leading hyphen where the
trimmed slug of the claim would produce the bare letter. -/
theorem c1_counterexample :
    convertedProjectName " a" = "-a" ∧ slugSpecTrim " a" = "a" ∧
    convertedProjectName " a" ≠ slugSpecTrim " a" := by decide

/-- Claim C1, amended: the deriver replaces every contiguous run of
whitespace (leading and trailing runs included, with no trimming) by a
single hyphen and lower-cases the result; the example name with
multiple interior spaces normalizes to the single-hyphen slug, and the
function is pure and deterministic. -/
theorem c1_slug_amended :
    (∀ s : String, convertedProjectName s = slugSpecNoTrim s) ∧
    convertedProjectName "My   Cool  Story" = "my-cool-story" ∧
    (∀ s t : String, s = t → convertedProjectName s = convertedProjectName t) := by
  refine ⟨?_, by decide, ?_⟩
  · intro s
    unfold convertedProjectName slugSpecNoTrim
    rw [replaceWs_eq_joinHyphen_wsSplit]
  · intro s t h
    rw [h]

/-- Claim C1, witness: the amended theorem applied at concrete inputs,
discharging the determinism hypothesis at the example name. -/
theorem c1_slug_witness :
    convertedProjectName "My   Cool  Story" = slugSpecNoTrim "My   Cool  Story" ∧
    convertedProjectName "My   Cool  Story" = convertedProjectName "My   Cool  Story" :=
  ⟨c1_slug_amended.1 "My   Cool  Story",
   c1_slug_amended.2.2 "My   Cool  Story" "My   Cool  Story" rfl⟩

/-- Claim C2: the date validator accepts exactly when the year is a
string matching the four-digit year regex and the month is a string
matching the 01 to 12 month regex; every other pair of values is
rejected with a raised error. -/
theorem c2_date_validator_accepts_iff (year month : JsVal) :
    checkProjectInitDate year month = none ↔
      ∃ ys ms, year = JsVal.vStr ys ∧ month = JsVal.vStr ms ∧
        yearRe ys = true ∧ monthRe ms = true := by
  cases year with
  | vStr ys =>
    cases month with
    | vStr ms =>
      by_cases hy : yearRe ys = true
      · by_cases hm : monthRe ms = true
        · simp [checkProjectInitDate, jsToString, typeofIsString, truthy, hy, hm,
            yearRe_nonempty hy, monthRe_nonempty hm]
        · simp [checkProjectInitDate, jsToString, typeofIsString, hm]
      · simp [checkProjectInitDate, jsToString, typeofIsString, hy]
    | vNum n => simp [checkProjectInitDate, typeofIsString]
    | vBool b => simp [checkProjectInitDate, typeofIsString]
    | vNull => simp [checkProjectInitDate, typeofIsString]
    | vUndef => simp [checkProjectInitDate, typeofIsString]
  | vNum n => simp [checkProjectInitDate, typeofIsString]
  | vBool b => simp [checkProjectInitDate, typeofIsString]
  | vNull => simp [checkProjectInitDate, typeofIsString]
  | vUndef => simp [checkProjectInitDate, typeofIsString]

/-- Claim C9: the metadata combiner produces a JSON object with exactly
the two top-level keys embed and styles holding the respective payloads,
and on the documented example inputs it produces the documented output. -/
theorem c9_combine_json :
    (∀ e m : Json, topLevelKeys (combineJson e m) = ["embed", "styles"]) ∧
    combineJson (.jobj [("a", .jnum 1)]) (.jobj [("b", .jnum 2)]) =
      .jobj [("embed", .jobj [("a", .jnum 1)]), ("styles", .jobj [("b", .jnum 2)])] :=
  ⟨fun _ _ => rfl, rfl⟩

/-- Claim C10: the missing-field error branch of the date validator is
unreachable — no pair of values makes it raise the missing error, and
whenever the year or month is absent or not a string the first check
already raises the malformed error. -/
theorem c10_missing_error_unreachable :
    (∀ year month : JsVal, checkProjectInitDate year month ≠ some DateError.missing) ∧
    (∀ year month : JsVal, (typeofIsString year && typeofIsString month) = false →
      checkProjectInitDate year month = some DateError.malformed) := by
  constructor
  · intro year month h
    cases year with
    | vStr ys =>
      cases month with
      | vStr ms =>
        by_cases hy : yearRe ys = true
        · by_cases hm : monthRe ms = true
          · simp [checkProjectInitDate, jsToString, typeofIsString, truthy, hy, hm,
              yearRe_nonempty hy, monthRe_nonempty hm] at h
          · simp [checkProjectInitDate, jsToString, typeofIsString, hm] at h
        · simp [checkProjectInitDate, jsToString, typeofIsString, hy] at h
      | vNum n => simp [checkProjectInitDate, typeofIsString] at h
      | vBool b => simp [checkProjectInitDate, typeofIsString] at h
      | vNull => simp [checkProjectInitDate, typeofIsString] at h
      | vUndef => simp [checkProjectInitDate, typeofIsString] at h
    | vNum n => simp [checkProjectInitDate, typeofIsString] at h
    | vBool b => simp [checkProjectInitDate, typeofIsString] at h
    | vNull => simp [checkProjectInitDate, typeofIsString] at h
    | vUndef => simp [checkProjectInitDate, typeofIsString] at h
  · intro year month h
    rcases Bool.and_eq_false_iff.mp h with h1 | h1 <;>
      simp [checkProjectInitDate, h1]

/-- Claim C10, witness: the theorem applied at a concrete pair where the
year field is absent. -/
theorem c10_missing_witness :
    checkProjectInitDate JsVal.vUndef (JsVal.vStr "01") ≠ some DateError.missing ∧
    checkProjectInitDate JsVal.vUndef (JsVal.vStr "01") = some DateError.malformed :=
  ⟨c10_missing_error_unreachable.1 JsVal.vUndef (JsVal.vStr "01"),
   c10_missing_error_unreachable.2 JsVal.vUndef (JsVal.vStr "01") (by decide)⟩

theorem lookupKey_append_of_some {store tail : List (String × String)}
    {k v : String} (h : lookupKey store k = some v) :
    lookupKey (store ++ tail) k = some v := by
  unfold lookupKey at h ⊢
  rw [List.find?_append]
  cases hf : store.find? (fun e => e.1 == k) with
  | none => rw [hf] at h; simp at h
  | some e => rw [hf] at h; simpa using h

theorem storeKeys_append (s t : List (String × String)) :
    storeKeys (s ++ t) = storeKeys s ++ storeKeys t := by
  simp [storeKeys]

theorem createOnlyUpload_of_mem {store : List (String × String)}
    {f : String × String} (h : f.1 ∈ storeKeys store) :
    createOnlyUpload store f = store := by
  unfold createOnlyUpload
  simp [h]

theorem mem_storeKeys_createOnlyUpload {store : List (String × String)}
    (f : String × String) {k : String} (h : k ∈ storeKeys store) :
    k ∈ storeKeys (createOnlyUpload store f) := by
  unfold createOnlyUpload
  split
  · exact h
  · rw [storeKeys_append]; exact List.mem_append_left _ h

theorem self_mem_storeKeys_createOnlyUpload (store : List (String × String))
    (f : String × String) : f.1 ∈ storeKeys (createOnlyUpload store f) := by
  unfold createOnlyUpload
  split
  · next h => simpa using h
  · rw [storeKeys_append]; simp [storeKeys]

theorem lookupKey_createOnlyUpload {store : List (String × String)}
    (f : String × String) {k v : String} (h : lookupKey store k = some v) :
    lookupKey (createOnlyUpload store f) k = some v := by
  unfold createOnlyUpload
  split
  · exact h
  · exact lookupKey_append_of_some h

theorem nodup_storeKeys_createOnlyUpload {store : List (String × String)}
    (f : String × String) (h : (storeKeys store).Nodup) :
    (storeKeys (createOnlyUpload store f)).Nodup := by
  unfold createOnlyUpload
  split
  · exact h
  · next hni =>
    rw [storeKeys_append]
    simp only [storeKeys, List.map_cons, List.map_nil]
    rw [List.nodup_append]
    refine ⟨h, List.nodup_singleton _, ?_⟩
    intro a ha hb
    simp only [List.mem_singleton] at hb
    subst hb
    have hf : f.1 ∉ storeKeys store := by simpa using hni
    exact hf ha

theorem mem_storeKeys_run (files : List (String × String)) :
    ∀ store k, k ∈ storeKeys store → k ∈ storeKeys (publishAssetsRun store files) := by
  induction files with
  | nil => intro store k h; exact h
  | cons f fs ih =>
    intro store k h
    exact ih (createOnlyUpload store f) k (mem_storeKeys_createOnlyUpload f h)

theorem files_mem_storeKeys_run (files : List (String × String)) :
    ∀ store f, f ∈ files → f.1 ∈ storeKeys (publishAssetsRun store files) := by
  induction files with
  | nil => intro store f h; cases h
  | cons g gs ih =>
    intro store f h
    rcases List.mem_cons.mp h with h | h
    · subst h
      exact mem_storeKeys_run gs (createOnlyUpload store f) f.1
        (self_mem_storeKeys_createOnlyUpload store f)
    · exact ih (createOnlyUpload store g) f h

theorem run_eq_of_all_mem (files : List (String × String)) :
    ∀ store, (∀ f ∈ files, f.1 ∈ storeKeys store) →
      publishAssetsRun store files = store := by
  induction files with
  | nil => intro store _; rfl
  | cons f fs ih =>
    intro store h
    have hf : f.1 ∈ storeKeys store := h f (List.mem_cons_self f fs)
    show publishAssetsRun (createOnlyUpload store f) fs = store
    rw [createOnlyUpload_of_mem hf]
    exact ih store (fun g hg => h g (List.mem_cons_of_mem f hg))

theorem lookupKey_run (files : List (String × String)) :
    ∀ store k v, lookupKey store k = some v →
      lookupKey (publishAssetsRun store files) k = some v := by
  induction files with
  | nil => intro store k v h; exact h
  | cons f fs ih =>
    intro store k v h
    exact ih (createOnlyUpload store f) k v (lookupKey_createOnlyUpload f h)

theorem nodup_storeKeys_run (files : List (String × String)) :
    ∀ store, (storeKeys store).Nodup →
      (storeKeys (publishAssetsRun store files)).Nodup := by
  induction files with
  | nil => intro store h; exact h
  | cons f fs ih =>
    intro store h
    exact ih (createOnlyUpload store f) (nodup_storeKeys_createOnlyUpload f h)

theorem lookupKey_ne_none_of_mem {store : List (String × String)} {k : String}
    (h : k ∈ storeKeys store) : lookupKey store k ≠ none := by
  rcases List.mem_map.mp h with ⟨e, he, hk⟩
  unfold lookupKey
  intro hnone
  rw [Option.map_eq_none', List.find?_eq_none] at hnone
  have hne := hnone e he
  simp [hk] at hne

theorem string_append_left_cancel {l a b : String} (h : l ++ a = l ++ b) :
    a = b := by
  have hd := congrArg String.data h
  simp only [String.data_append, List.append_cancel_left_eq] at hd
  exact String.ext hd

/-- Claim C3: if either pre-flight check fails — dirty working tree, or
a project date the validator rejects — the publish-story task aborts
with the corresponding error before performing any remote operation, so
its remote trace is empty. -/
theorem c3_preflight_aborts (env : StoryEnv)
    (h : env.clean = false ∨ checkProjectInitDate env.year env.month ≠ none) :
    (publishStory env).1 = [] ∧
    ((publishStory env).2 = StoryOutcome.errorDirty ∨
     (publishStory env).2 = StoryOutcome.errorDate) := by
  unfold publishStory
  rcases h with h | h
  · simp [h]
  · by_cases hc : env.clean
    · rw [Option.ne_none_iff_isSome] at h
      simp [hc, h]
    · simp [hc]

/-- Claim C3, witness: the theorem applied to a concrete environment
with a dirty working tree. -/
theorem c3_preflight_witness :
    (publishStory sampleEnvDirty).1 = [] ∧
    ((publishStory sampleEnvDirty).2 = StoryOutcome.errorDirty ∨
     (publishStory sampleEnvDirty).2 = StoryOutcome.errorDate) :=
  c3_preflight_aborts sampleEnvDirty (Or.inl rfl)

/-- Claim C4: when the operator declines the confirmation prompt, the
publish-story task performs zero remote writes — its remote trace is
empty, so no upload and no sync deletion reaches the store. -/
theorem c4_decline_no_remote_writes (env : StoryEnv)
    (h : env.confirmed = false) :
    (publishStory env).1 = [] := by
  unfold publishStory
  by_cases h1 : env.clean
  · by_cases h2 : (checkProjectInitDate env.year env.month).isSome <;>
      simp [h1, h2, h]
  · simp [h1]

/-- Claim C4, witness: the theorem applied to a concrete environment
where the prompt is declined. -/
theorem c4_decline_witness : (publishStory sampleEnvDeclined).1 = [] :=
  c4_decline_no_remote_writes sampleEnvDeclined rfl

/-- Claim C7, counterexample: the claim says one identical derived
string is used both as the remote object-prefix and as the sync-step
argument, but the gulpfile builds two different strings — at the
concrete configuration year 2017, month 01, project name My Story, the
rename prefix has a leading and a trailing slash while the sync argument
has neither. -/
theorem c7_counterexample :
    objectsLocation "2017" "01" (convertedProjectName "My Story") ≠
    syncLocation "2017" "01" (convertedProjectName "My Story") := by decide

/-- Claim C7, amended: the derived publish descriptor is the string
slash machinist slash dist slash year slash month slash slug slash; the
rename step uses it as the object-prefix, while the sync step receives a
separately built string that equals the same descriptor with the leading
and trailing slash removed, and in a fully confirmed run the task trace
is exactly the publish step keyed by objectsLocation followed by the
sync deletions filtered by syncLocation. -/
theorem c7_path_amended :
    (∀ y m slug : String,
      objectsLocation y m slug = "/" ++ syncLocation y m slug ++ "/") ∧
    (∀ env : StoryEnv, env.clean = true →
      checkProjectInitDate env.year env.month = none → env.confirmed = true →
      publishStory env =
        (publishOps (objectsLocation (jsToString env.year) (jsToString env.month)
            (convertedProjectName env.projectName)) env.remote
            (storySrcFiles env.localFiles) ++
         syncDeleteOps (syncLocation (jsToString env.year) (jsToString env.month)
            (convertedProjectName env.projectName))
           ((storySrcFiles env.localFiles).map (fun f =>
             objectsLocation (jsToString env.year) (jsToString env.month)
               (convertedProjectName env.projectName) ++ f.1)) env.remote,
         StoryOutcome.ok)) := by
  constructor
  · intro y m slug
    unfold objectsLocation syncLocation
    have h : ("/machinist/dist/" : String) = "/" ++ "machinist/dist/" := rfl
    simp only [String.append_assoc]
    conv_rhs => rw [← String.append_assoc, ← h]
  · intro env h1 h2 h3
    simp [publishStory, h1, h2, h3]

/-- Claim C7, witness: the amended theorem applied to a concrete
environment where every gate passes. -/
theorem c7_path_witness :
    publishStory sampleEnvOk =
      (publishOps (objectsLocation (jsToString sampleEnvOk.year)
          (jsToString sampleEnvOk.month)
          (convertedProjectName sampleEnvOk.projectName)) sampleEnvOk.remote
          (storySrcFiles sampleEnvOk.localFiles) ++
       syncDeleteOps (syncLocation (jsToString sampleEnvOk.year)
          (jsToString sampleEnvOk.month)
          (convertedProjectName sampleEnvOk.projectName))
         ((storySrcFiles sampleEnvOk.localFiles).map (fun f =>
           objectsLocation (jsToString sampleEnvOk.year)
             (jsToString sampleEnvOk.month)
             (convertedProjectName sampleEnvOk.projectName) ++ f.1))
         sampleEnvOk.remote,
       StoryOutcome.ok) :=
  c7_path_amended.2 sampleEnvOk rfl (by decide) rfl

/-- Claim C8: in the asset publish pipeline, every entering file whose
extension is on the text-like gzip filter list is uploaded as the gzip
compression of its content with the gzip content-encoding mark set,
while every entering file off that list is uploaded raw with the mark
unset. -/
theorem c8_gzip_text_like (y m slug : String) (f : CdnFile)
    (_henters : entersAssetStream f = true) :
    (gzipFilterExts.contains f.ext = true →
       (processAsset y m slug f).body = AssetBody.gzipCompressed f.content ∧
       (processAsset y m slug f).contentEncodingGzip = true) ∧
    (gzipFilterExts.contains f.ext = false →
       (processAsset y m slug f).body = AssetBody.raw f.content ∧
       (processAsset y m slug f).contentEncodingGzip = false) := by
  constructor <;> intro hg <;> simp [processAsset, by simpa using hg]

/-- Claim C8, witness: the theorem applied to a concrete text file with
the txt extension. -/
theorem c8_gzip_witness :
    (processAsset "2017" "01" "my-story" sampleTxtFile).body =
      AssetBody.gzipCompressed "hello" ∧
    (processAsset "2017" "01" "my-story" sampleTxtFile).contentEncodingGzip = true :=
  (c8_gzip_text_like "2017" "01" "my-story" sampleTxtFile (by decide)).1 (by decide)

/-- Claim C5: the create-only upload of the asset publish task never
overwrites an existing remote object — running the same upload batch a
second time changes nothing, keys stay duplicate-free so each published
file yields exactly one remote object, every previously stored content
is preserved unchanged, and every batch file ends up present. -/
theorem c5_create_only_idempotent (store files : List (String × String))
    (hnd : (storeKeys store).Nodup) :
    publishAssetsRun (publishAssetsRun store files) files =
      publishAssetsRun store files ∧
    (storeKeys (publishAssetsRun store files)).Nodup ∧
    (∀ k v, lookupKey store k = some v →
      lookupKey (publishAssetsRun store files) k = some v) ∧
    (∀ f, f ∈ files → lookupKey (publishAssetsRun store files) f.1 ≠ none) := by
  refine ⟨?_, nodup_storeKeys_run files store hnd, ?_, ?_⟩
  · exact run_eq_of_all_mem files (publishAssetsRun store files)
      (fun f hf => files_mem_storeKeys_run files store f hf)
  · intro k v h
    exact lookupKey_run files store k v h
  · intro f hf
    exact lookupKey_ne_none_of_mem (files_mem_storeKeys_run files store f hf)

/-- Claim C5, witness: the theorem applied to an empty store and a
one-file batch. -/
theorem c5_create_only_witness :
    publishAssetsRun (publishAssetsRun [] [("a.jpg", "bytes")]) [("a.jpg", "bytes")] =
      publishAssetsRun [] [("a.jpg", "bytes")] ∧
    lookupKey (publishAssetsRun [] [("a.jpg", "bytes")]) "a.jpg" ≠ none :=
  ⟨(c5_create_only_idempotent [] [("a.jpg", "bytes")] (by decide)).1,
   (c5_create_only_idempotent [] [("a.jpg", "bytes")] (by decide)).2.2.2
     ("a.jpg", "bytes") (by decide)⟩

/-- Claim C6: the sync step deletes every remote object under the sync
location that has no local counterpart, and an object present both
locally and remotely with identical content is left untouched — it is
neither re-uploaded by the publish step nor deleted by the sync step. -/
theorem c6_sync_mirror (loc : String) (files remote : List (String × String)) :
    (∀ k c, (k, c) ∈ remote → strStartsWith loc k = true →
       (files.map (fun f => loc ++ f.1)).contains k = false →
       RemoteOp.deleteKey k ∈
         syncDeleteOps loc (files.map (fun f => loc ++ f.1)) remote) ∧
    (∀ p c, (p, c) ∈ files → lookupKey remote (loc ++ p) = some c →
       RemoteOp.upload (loc ++ p) c ∉ publishOps loc remote files ∧
       RemoteOp.deleteKey (loc ++ p) ∉
         syncDeleteOps loc (files.map (fun f => loc ++ f.1)) remote) := by
  constructor
  · intro k c hmem hpre hnl
    unfold syncDeleteOps
    refine List.mem_map.mpr ⟨(k, c), List.mem_filter.mpr ⟨hmem, ?_⟩, rfl⟩
    show (strStartsWith loc k && !((files.map (fun f => loc ++ f.1)).contains k)) = true
    rw [hpre, hnl]
    rfl
  · intro p c hfile hlook
    constructor
    · intro hup
      unfold publishOps at hup
      rcases List.mem_filterMap.mp hup with ⟨f, hf, hsome⟩
      by_cases hcond : (lookupKey remote (loc ++ f.1) == some f.2) = true
      · rw [if_pos hcond] at hsome; cases hsome
      · rw [if_neg hcond] at hsome
        injection hsome with hsome
        injection hsome with hkey hcontent
        have hp : f.1 = p := string_append_left_cancel hkey
        rw [hp, hcontent] at hcond
        exact hcond (by simp [hlook])
    · intro hdel
      unfold syncDeleteOps at hdel
      rcases List.mem_map.mp hdel with ⟨r, hr, hrk⟩
      have hrk2 : r.1 = loc ++ p := by
        injection hrk
      have hfilt := (List.mem_filter.mp hr).2
      rw [hrk2] at hfilt
      have hin : (loc ++ p) ∈ files.map (fun f => loc ++ f.1) :=
        List.mem_map.mpr ⟨(p, c), hfile, rfl⟩
      simp [hin] at hfilt

/-- Claim C6, witness: the theorem applied to a concrete location, one
local file whose remote copy is identical, and one stale remote object. -/
theorem c6_sync_witness :
    RemoteOp.deleteKey "loc/old.css" ∈
      syncDeleteOps "loc/" ([("a.js", "code")].map (fun f => "loc/" ++ f.1))
        [("loc/a.js", "code"), ("loc/old.css", "stale")] ∧
    RemoteOp.upload ("loc/" ++ "a.js") "code" ∉
      publishOps "loc/" [("loc/a.js", "code"), ("loc/old.css", "stale")]
        [("a.js", "code")] ∧
    RemoteOp.deleteKey ("loc/" ++ "a.js") ∉
      syncDeleteOps "loc/" ([("a.js", "code")].map (fun f => "loc/" ++ f.1))
        [("loc/a.js", "code"), ("loc/old.css", "stale")] :=
  ⟨(c6_sync_mirror "loc/" [("a.js", "code")]
      [("loc/a.js", "code"), ("loc/old.css", "stale")]).1
      "loc/old.css" "stale" (by decide) (by decide) (by decide),
   ((c6_sync_mirror "loc/" [("a.js", "code")]
      [("loc/a.js", "code"), ("loc/old.css", "stale")]).2
      "a.js" "code" (by decide) (by decide)).1,
   ((c6_sync_mirror "loc/" [("a.js", "code")]
      [("loc/a.js", "code"), ("loc/old.css", "stale")]).2
      "a.js" "code" (by decide) (by decide)).2⟩

end Machinist
